import Mathlib

/-!
Verification of the geometric and light-transport core of the `proton` ray
tracer (`src/raytrace/objects/mesh.rs` and `src/raytrace/materials/mod.rs`).

The Rust code is generic over a scalar trait `F : Float`; we embed the scalar
type as `ℚ` with exact arithmetic.  Effects are made explicit:

* the `println!("negative multiplier")` diagnostic in
  `BRDFReflector::reflect_predetermined` is modelled by returning a `Bool`
  alongside the `BRDFIncident` (`true` exactly when the print fires);
* `F::sample_rand()` (a draw from the shared random generator) is modelled by
  an explicit `ℚ` argument holding the drawn value;
* the `unreachable!` panic in `BoundImpl::sample_triangle` is modelled by the
  `none` case of an `Option` result.

External collaborators (`Vector3D`, `base::Triangle`, `base::Mesh`, the BVH)
are embedded through their query contracts: componentwise vector arithmetic,
and a triangle record carrying its area, normal, sampling functions and exact
hit test as black-box data.
-/

/-- Model of the external 3-component vector type `Vector3D<F>`, with `F = ℚ`. -/
structure Vector3D where
  x : ℚ
  y : ℚ
  z : ℚ
deriving DecidableEq, Repr

/-- Dot product of `Vector3D`, componentwise multiply-and-add. -/
def Vector3D.dot (a b : Vector3D) : ℚ :=
  a.x * b.x + a.y * b.y + a.z * b.z

/-- Scaling a `Vector3D` by a scalar (the Rust `Vector3D<F> * F` operator). -/
def Vector3D.smul (a : Vector3D) (s : ℚ) : Vector3D :=
  ⟨a.x * s, a.y * s, a.z * s⟩

/-- Dividing a `Vector3D` by a scalar (the Rust `Vector3D<F> / F` operator). -/
def Vector3D.divs (a : Vector3D) (s : ℚ) : Vector3D :=
  ⟨a.x / s, a.y / s, a.z / s⟩

/-- Model of `Ray<F>`: an origin point and a direction vector. -/
structure Ray where
  origin : Vector3D
  direction : Vector3D
deriving DecidableEq, Repr

/-- Model of `Incident<F>`: the result of a successful hit test, as read
through its accessors `coords()`, `w_i()`, `normal()`, `distance()`,
`inside()`. -/
structure Incident where
  coords : Vector3D
  w_i : Vector3D
  normal : Vector3D
  distance : ℚ
  inside : Bool
deriving DecidableEq, Repr

/-- Model of `BRDFIncident<F>`: reflectance, sampled outgoing direction,
sampling density, and the path-contribution multiplier. -/
structure BRDFIncident where
  f_r : Vector3D
  w_r : Vector3D
  pdf : ℚ
  multiplier : Vector3D
deriving DecidableEq, Repr

/-- Model of `RefractIncident<F>`. -/
structure RefractIncident where
  w_r : Vector3D
deriving DecidableEq, Repr

/-- Model of the `BRDFReflector<F>` trait: a strategy supplies the two
required methods `f_r` and `sample_reflected`; the default methods
`reflect_predetermined` and `reflect` are defined below over this record. -/
structure BRDFReflector where
  f_r : Vector3D → Vector3D → Vector3D → Vector3D → ℚ → Vector3D
  sample_reflected : Vector3D → Vector3D → Vector3D → ℚ → Vector3D × ℚ

/-- Model of the default method `BRDFReflector::reflect_predetermined`.
The returned `Bool` is `true` exactly when the Rust code executes
`println!("negative multiplier")`, i.e. when the x channel of the computed
multiplier is negative.  The `BRDFIncident` is returned in either case. -/
def BRDFReflector.reflect_predetermined (R : BRDFReflector) (incident : Incident)
    (w_r : Vector3D) (pdf : ℚ) (seed : ℚ) : BRDFIncident × Bool :=
  let coords := incident.coords
  let w_i := incident.w_i
  let normal := incident.normal
  let f_r := R.f_r coords w_i w_r normal seed
  let multiplier :=
    if pdf = 0 then Vector3D.mk 1 1 1
    else (f_r.smul (w_r.dot normal)).divs pdf
  (⟨f_r, w_r, pdf, multiplier⟩, decide (multiplier.x < 0))

/-- Model of the default method `BRDFReflector::reflect`: sample an outgoing
direction and density with `sample_reflected`, then delegate to
`reflect_predetermined` with the same incident and seed. -/
def BRDFReflector.reflect (R : BRDFReflector) (incident : Incident) (seed : ℚ) :
    BRDFIncident × Bool :=
  let coords := incident.coords
  let w_i := incident.w_i
  let normal := incident.normal
  let wp := R.sample_reflected coords w_i normal seed
  R.reflect_predetermined incident wp.1 wp.2 seed

/-- C2: the multiplier returned by `reflect_predetermined` is
`f_r ⊙ (w_r · normal) / pdf` componentwise when `pdf ≠ 0`, and exactly
`(1, 1, 1)` when `pdf = 0`. -/
theorem reflect_predetermined_multiplier (R : BRDFReflector) (incident : Incident)
    (w_r : Vector3D) (pdf seed : ℚ) :
    (pdf = 0 →
      (R.reflect_predetermined incident w_r pdf seed).1.multiplier = Vector3D.mk 1 1 1) ∧
    (pdf ≠ 0 →
      (R.reflect_predetermined incident w_r pdf seed).1.multiplier =
        Vector3D.mk
          ((R.f_r incident.coords incident.w_i w_r incident.normal seed).x *
            (w_r.dot incident.normal) / pdf)
          ((R.f_r incident.coords incident.w_i w_r incident.normal seed).y *
            (w_r.dot incident.normal) / pdf)
          ((R.f_r incident.coords incident.w_i w_r incident.normal seed).z *
            (w_r.dot incident.normal) / pdf)) := by
  constructor <;> intro h <;>
    simp [BRDFReflector.reflect_predetermined, h, Vector3D.smul, Vector3D.divs]

/-- Concrete constant reflectance strategy used by witnesses. -/
def constReflector : BRDFReflector :=
  ⟨fun _ _ _ _ _ => ⟨2, 3, 4⟩, fun _ _ _ s => (⟨0, 0, 2⟩, s)⟩

/-- Concrete incident used by witnesses: normal `(0,0,1)`. -/
def witnessIncident : Incident :=
  ⟨⟨0, 0, 0⟩, ⟨0, 0, -1⟩, ⟨0, 0, 1⟩, 1, false⟩

/-- Witness for C2: with reflectance `(2,3,4)`, `w_r · normal = 2` and
`pdf = 4` the multiplier is `(1, 3/2, 2)`; with `pdf = 0` it is `(1,1,1)`. -/
theorem reflect_predetermined_multiplier_witness :
    (constReflector.reflect_predetermined witnessIncident ⟨0, 0, 2⟩ 4 0).1.multiplier =
      Vector3D.mk 1 (3 / 2) 2 ∧
    (constReflector.reflect_predetermined witnessIncident ⟨0, 0, 2⟩ 0 0).1.multiplier =
      Vector3D.mk 1 1 1 := by
  constructor
  · exact ((reflect_predetermined_multiplier constReflector witnessIncident
      ⟨0, 0, 2⟩ 4 0).2 (by norm_num)).trans (by
        norm_num [constReflector, witnessIncident, Vector3D.dot])
  · exact (reflect_predetermined_multiplier constReflector witnessIncident
      ⟨0, 0, 2⟩ 0 0).1 rfl

/-- C3: `reflect` equals `sample_reflected` composed with
`reflect_predetermined` at the same incident and seed. -/
theorem reflect_eq_reflect_predetermined (R : BRDFReflector) (incident : Incident)
    (seed : ℚ) :
    R.reflect incident seed =
      R.reflect_predetermined incident
        (R.sample_reflected incident.coords incident.w_i incident.normal seed).1
        (R.sample_reflected incident.coords incident.w_i incident.normal seed).2
        seed := rfl

/-- Reflectance strategy whose `f_r` has a negative y channel but a positive
x channel, exhibiting a multiplier that is negative in a non-x channel. -/
def negYReflector : BRDFReflector :=
  ⟨fun _ _ _ _ _ => ⟨1, -1, 1⟩, fun _ _ _ s => (⟨0, 0, 1⟩, s)⟩

/-- Counterexample to C9: with reflectance `(1,-1,1)`, `w_r · normal = 1` and
`pdf = 1`, the y channel of the multiplier is negative yet the
negative-multiplier diagnostic does not fire (the code only tests the x
channel). -/
theorem negative_y_multiplier_no_diagnostic :
    (negYReflector.reflect_predetermined witnessIncident ⟨0, 0, 1⟩ 1 0).1.multiplier.y < 0 ∧
    (negYReflector.reflect_predetermined witnessIncident ⟨0, 0, 1⟩ 1 0).2 = false := by
  constructor
  · norm_num [BRDFReflector.reflect_predetermined, negYReflector, witnessIncident,
      Vector3D.dot, Vector3D.smul, Vector3D.divs]
  · norm_num [BRDFReflector.reflect_predetermined, negYReflector, witnessIncident,
      Vector3D.dot, Vector3D.smul, Vector3D.divs]

/-- C9 (amended): the negative-multiplier diagnostic fires exactly when the
x channel of the resulting multiplier is negative; the diagnostic is
non-fatal and the `BRDFIncident` is returned in either case. -/
theorem diagnostic_iff_x_negative (R : BRDFReflector) (incident : Incident)
    (w_r : Vector3D) (pdf seed : ℚ) :
    (R.reflect_predetermined incident w_r pdf seed).2 = true ↔
      (R.reflect_predetermined incident w_r pdf seed).1.multiplier.x < 0 := by
  simp [BRDFReflector.reflect_predetermined]

/-- Model of the external `base::Triangle<F>` primitive, through its query
contract: area, normal, location/direction sampling and the exact ray-hit
test.  The `ℚ` argument of the sampling functions is the value the primitive
draws from the random source during the call. -/
structure Triangle where
  area : ℚ
  normal : Vector3D
  sample_location : ℚ → Vector3D × Vector3D
  sample_direction : ℚ → Vector3D × ℚ
  hit : Ray → Option Incident

instance : Inhabited Triangle :=
  ⟨⟨0, ⟨0, 0, 0⟩, fun _ => (⟨0, 0, 0⟩, ⟨0, 0, 0⟩), fun _ => (⟨0, 0, 0⟩, 0), fun _ => none⟩⟩

/-- Model of the external `base::Mesh<F>`: its ordered triangle sequence and
its aggregate area as reported by `area()`. -/
structure BaseMesh where
  triangles : List Triangle
  area : ℚ

/-- Model of `BoundImpl<F>`: the inner mesh plus the per-triangle BVH.  The
BVH is external and consumed only through its broad-phase query, modelled as
a function from a ray to the list of candidate triangle identifiers (the
`GenericBound::get()` values of the returned bounds, in iteration order). -/
structure BoundImpl where
  inner : BaseMesh
  bvh : Ray → List ℕ

/-- Model of `BoundImpl::area`, delegating to the inner mesh. -/
def BoundImpl.area (b : BoundImpl) : ℚ :=
  b.inner.area

/-- Model of `F::max_value()` for `F = f64`: the largest finite double,
`(2 - 2^-52) * 2^1023`. -/
def floatMaxValue : ℚ :=
  2 ^ 1024 - 2 ^ 971

/-- The narrow-phase loop of `BoundImpl::hit`: fold over the candidate
identifiers, keeping the incident with the smallest distance seen so far
(state = `(min_incident, min_distance)`, updated only on a strictly smaller
distance). -/
def hitFold (b : BoundImpl) (ray : Ray) :
    List ℕ → Option Incident × ℚ → Option Incident × ℚ
  | [], st => st
  | id :: rest, st =>
    match (b.inner.triangles.getD id default).hit ray with
    | none => hitFold b ray rest st
    | some incident =>
      if incident.distance < st.2 then
        hitFold b ray rest (some incident, incident.distance)
      else
        hitFold b ray rest st

/-- Model of `BoundImpl::hit`: query the BVH for candidates; if none, report
no hit; otherwise run the exact per-triangle hit test on every candidate and
keep the nearest, starting from `min_distance = F::max_value()`. -/
def BoundImpl.hit (b : BoundImpl) (ray : Ray) : Option Incident :=
  let hit_bound_vec := b.bvh ray
  if hit_bound_vec.isEmpty then none
  else (hitFold b ray hit_bound_vec (none, floatMaxValue)).1

/-- The incidents of the candidates that report a hit, in candidate order. -/
def candidateIncidents (b : BoundImpl) (ray : Ray) : List Incident :=
  (b.bvh ray).filterMap fun id => (b.inner.triangles.getD id default).hit ray

/-- One step of minimum selection with first-seen-wins tie-breaking. -/
def nearestStep (acc : Option Incident) (incident : Incident) : Option Incident :=
  match acc with
  | none => some incident
  | some best => if incident.distance < best.distance then some incident else some best

/-- Specification-side selection, following the spec: among the incidents, the
one with minimum hit distance, ties resolved first-seen-wins; `none` on the
empty list. -/
def firstNearest (l : List Incident) : Option Incident :=
  l.foldl nearestStep none

theorem hitFold_cons_none (b : BoundImpl) (ray : Ray) (id : ℕ) (rest : List ℕ)
    (st : Option Incident × ℚ)
    (h : (b.inner.triangles.getD id default).hit ray = none) :
    hitFold b ray (id :: rest) st = hitFold b ray rest st := by
  simp only [hitFold, h]

theorem hitFold_cons_some (b : BoundImpl) (ray : Ray) (id : ℕ) (rest : List ℕ)
    (minInc : Option Incident) (minDist : ℚ) (incident : Incident)
    (h : (b.inner.triangles.getD id default).hit ray = some incident) :
    hitFold b ray (id :: rest) (minInc, minDist) =
      if incident.distance < minDist then
        hitFold b ray rest (some incident, incident.distance)
      else hitFold b ray rest (minInc, minDist) := by
  simp only [hitFold, h]

theorem hitFold_some_eq (b : BoundImpl) (ray : Ray) :
    ∀ (ids : List ℕ) (best : Incident),
      (hitFold b ray ids (some best, best.distance)).1 =
        ((ids.filterMap fun id => (b.inner.triangles.getD id default).hit ray).foldl
          nearestStep (some best)) := by
  intro ids
  induction ids with
  | nil => intro best; rfl
  | cons id rest ih =>
    intro best
    rcases h : (b.inner.triangles.getD id default).hit ray with _ | incident
    · rw [hitFold_cons_none b ray id rest _ h]
      simp only [List.filterMap_cons, h]
      exact ih best
    · rw [hitFold_cons_some b ray id rest (some best) best.distance incident h]
      simp only [List.filterMap_cons, h, List.foldl_cons]
      by_cases hc : incident.distance < best.distance
      · rw [if_pos hc]
        have hstep : nearestStep (some best) incident = some incident := by
          simp only [nearestStep, if_pos hc]
        rw [hstep]
        exact ih incident
      · rw [if_neg hc]
        have hstep : nearestStep (some best) incident = some best := by
          simp only [nearestStep, if_neg hc]
        rw [hstep]
        exact ih best

theorem hitFold_none_eq (b : BoundImpl) (ray : Ray) :
    ∀ (ids : List ℕ) (d : ℚ),
      (∀ incident ∈ ids.filterMap
          (fun id => (b.inner.triangles.getD id default).hit ray),
        incident.distance < d) →
      (hitFold b ray ids (none, d)).1 =
        ((ids.filterMap fun id => (b.inner.triangles.getD id default).hit ray).foldl
          nearestStep none) := by
  intro ids
  induction ids with
  | nil => intro d _; rfl
  | cons id rest ih =>
    intro d hd
    rcases h : (b.inner.triangles.getD id default).hit ray with _ | incident
    · rw [hitFold_cons_none b ray id rest _ h]
      simp only [List.filterMap_cons, h]
      refine ih d ?_
      intro i hi
      refine hd i ?_
      simp only [List.filterMap_cons, h]
      exact hi
    · have hlt : incident.distance < d := by
        refine hd incident ?_
        simp only [List.filterMap_cons, h]
        exact List.mem_cons_self _ _
      rw [hitFold_cons_some b ray id rest none d incident h, if_pos hlt,
        hitFold_some_eq b ray rest incident]
      simp only [List.filterMap_cons, h, List.foldl_cons]
      have hstep : nearestStep none incident = some incident := rfl
      rw [hstep]

/-- C1: under the bound that every candidate hit distance is below
`F::max_value()`, `BoundImpl::hit` returns exactly the first-seen minimum-
distance incident among the candidates that report a hit, and `none` when the
candidate set is empty or no candidate's exact test succeeds. -/
theorem hit_eq_firstNearest (b : BoundImpl) (ray : Ray)
    (h : ∀ incident ∈ candidateIncidents b ray, incident.distance < floatMaxValue) :
    BoundImpl.hit b ray = firstNearest (candidateIncidents b ray) := by
  by_cases he : (b.bvh ray).isEmpty = true
  · have he2 : b.bvh ray = [] := List.isEmpty_iff.mp he
    simp [BoundImpl.hit, firstNearest, candidateIncidents, he2]
  · simp only [BoundImpl.hit, firstNearest, candidateIncidents]
    rw [if_neg he]
    exact hitFold_none_eq b ray (b.bvh ray) floatMaxValue h

/-- Concrete ray used by witnesses: origin at the origin, direction `(0,0,1)`. -/
def witnessRay : Ray :=
  ⟨⟨0, 0, 0⟩, ⟨0, 0, 1⟩⟩

/-- Incident at distance 5 (the hit of the first candidate triangle). -/
def farIncident : Incident :=
  ⟨⟨0, 0, 5⟩, ⟨0, 0, 1⟩, ⟨0, 0, -1⟩, 5, false⟩

/-- Incident at distance 3 (the hit of the second candidate triangle). -/
def nearIncident : Incident :=
  ⟨⟨0, 0, 3⟩, ⟨0, 0, 1⟩, ⟨0, 0, -1⟩, 3, false⟩

/-- Triangle whose exact hit test reports `farIncident` for every ray. -/
def farTriangle : Triangle :=
  ⟨1 / 2, ⟨0, 0, -1⟩, fun _ => (⟨0, 0, 5⟩, ⟨0, 0, 0⟩), fun _ => (⟨0, 0, 1⟩, 1),
    fun _ => some farIncident⟩

/-- Triangle whose exact hit test reports `nearIncident` for every ray. -/
def nearTriangle : Triangle :=
  ⟨1 / 2, ⟨0, 0, -1⟩, fun _ => (⟨0, 0, 3⟩, ⟨0, 0, 0⟩), fun _ => (⟨0, 0, 1⟩, 1),
    fun _ => some nearIncident⟩

/-- Two overlapping triangles both hit by the ray; the broad phase reports
both candidates, in index order, with the farther one first. -/
def twoTriangleBound : BoundImpl :=
  ⟨⟨[farTriangle, nearTriangle], 1⟩, fun _ => [0, 1]⟩

/-- Witness for C1: with two candidates hit at distances 5 then 3, the mesh
hit test returns the incident at distance 3, not the first-seen one. -/
theorem hit_eq_firstNearest_witness :
    BoundImpl.hit twoTriangleBound witnessRay = some nearIncident := by
  have hc : candidateIncidents twoTriangleBound witnessRay =
      [farIncident, nearIncident] := rfl
  have h : ∀ incident ∈ candidateIncidents twoTriangleBound witnessRay,
      incident.distance < floatMaxValue := by
    rw [hc]
    intro i hi
    rcases List.mem_cons.mp hi with hi | hi
    · subst hi
      norm_num [farIncident, floatMaxValue]
    · rcases List.mem_cons.mp hi with hi | hi
      · subst hi
        norm_num [nearIncident, floatMaxValue]
      · exact absurd hi (List.not_mem_nil _)
  rw [hit_eq_firstNearest twoTriangleBound witnessRay h, hc]
  have hstep1 : nearestStep none farIncident = some farIncident := rfl
  have hstep2 : nearestStep (some farIncident) nearIncident = some nearIncident := by
    simp only [nearestStep]
    rw [if_pos (by norm_num [farIncident, nearIncident])]
  simp only [firstNearest, List.foldl_cons, List.foldl_nil, hstep1, hstep2]

/-- The area-weighted scan of `BoundImpl::sample_triangle`: subtract each
triangle's area from the running value; return the first triangle at which
the running value is non-positive, or `none` (the `unreachable!` panic) when
the sequence is exhausted. -/
def sampleWalk : List Triangle → ℚ → Option Triangle
  | [], _ => none
  | t :: rest, s =>
    let s2 := s - t.area
    if s2 ≤ 0 then some t else sampleWalk rest s2

/-- Model of `BoundImpl::sample_triangle`: scale the drawn uniform sample
(`rand`, the value of `F::sample_rand()`) by the total mesh area, then run the
subtracting scan over the ordered triangle sequence.  `none` models the
`unreachable!("congratulations")` panic. -/
def BoundImpl.sample_triangle (b : BoundImpl) (rand : ℚ) : Option Triangle :=
  sampleWalk b.inner.triangles (b.area * rand)

/-- The sum of the areas of the first `k` triangles of the sequence. -/
def prefixArea (ts : List Triangle) (k : ℕ) : ℚ :=
  ((ts.take k).map Triangle.area).sum

theorem prefixArea_cons (t : Triangle) (ts : List Triangle) (k : ℕ) :
    prefixArea (t :: ts) (k + 1) = t.area + prefixArea ts k := by
  simp [prefixArea, List.take_succ_cons]

theorem sampleWalk_eq_some (ts : List Triangle) :
    ∀ (v : ℚ) (t : Triangle),
      sampleWalk ts v = some t ↔
        ∃ i, ∃ _ : i < ts.length, ts[i]? = some t ∧
          v - prefixArea ts (i + 1) ≤ 0 ∧
          ∀ j < i, 0 < v - prefixArea ts (j + 1) := by
  induction ts with
  | nil =>
    intro v t
    simp [sampleWalk]
  | cons a rest ih =>
    intro v t
    by_cases h : v - a.area ≤ 0
    · have hw : sampleWalk (a :: rest) v = some a := by
        simp only [sampleWalk]
        rw [if_pos h]
      constructor
      · intro he
        refine ⟨0, by simp, ?_, ?_, ?_⟩
        · rw [hw] at he
          simpa using he
        · rw [prefixArea_cons]
          simpa [prefixArea] using h
        · intro j hj
          omega
      · rintro ⟨i, hi, hget, hle, hpos⟩
        rcases i with _ | i
        · simp only [List.getElem?_cons_zero] at hget
          rw [hw]
          exact hget
        · exfalso
          have h0 := hpos 0 (by omega)
          rw [prefixArea_cons] at h0
          simp only [prefixArea, List.take_zero, List.map_nil, List.sum_nil,
            add_zero] at h0
          linarith
    · have hw : sampleWalk (a :: rest) v = sampleWalk rest (v - a.area) := by
        simp only [sampleWalk]
        rw [if_neg h]
      rw [hw, ih (v - a.area) t]
      constructor
      · rintro ⟨i, hi, hget, hle, hpos⟩
        refine ⟨i + 1, by simpa using Nat.succ_lt_succ hi, by simpa using hget, ?_, ?_⟩
        · rw [prefixArea_cons]
          linarith
        · intro j hj
          rcases j with _ | j
          · rw [prefixArea_cons]
            simp only [prefixArea, List.take_zero, List.map_nil, List.sum_nil,
              add_zero]
            linarith [not_le.mp h]
          · have := hpos j (by omega)
            rw [prefixArea_cons]
            linarith
      · rintro ⟨i, hi, hget, hle, hpos⟩
        rcases i with _ | i
        · exfalso
          simp only [List.getElem?_cons_zero] at hget
          rw [prefixArea_cons] at hle
          simp only [prefixArea, List.take_zero, List.map_nil, List.sum_nil,
            add_zero] at hle
          exact h (by linarith)
        · refine ⟨i, by simpa using Nat.lt_of_succ_lt_succ hi, by simpa using hget, ?_, ?_⟩
          · rw [prefixArea_cons] at hle
            linarith
          · intro j hj
            have := hpos (j + 1) (by omega)
            rw [prefixArea_cons] at this
            linarith

theorem sampleWalk_eq_none (ts : List Triangle) :
    ∀ v : ℚ,
      sampleWalk ts v = none ↔
        ∀ i < ts.length, 0 < v - prefixArea ts (i + 1) := by
  induction ts with
  | nil =>
    intro v
    simp [sampleWalk]
  | cons a rest ih =>
    intro v
    by_cases h : v - a.area ≤ 0
    · have hw : sampleWalk (a :: rest) v = some a := by
        simp only [sampleWalk]
        rw [if_pos h]
      simp only [hw]
      constructor
      · intro he
        exact absurd he (by simp)
      · intro hall
        have h0 := hall 0 (by simp)
        rw [prefixArea_cons] at h0
        simp only [prefixArea, List.take_zero, List.map_nil, List.sum_nil,
          add_zero] at h0
        linarith
    · have hw : sampleWalk (a :: rest) v = sampleWalk rest (v - a.area) := by
        simp only [sampleWalk]
        rw [if_neg h]
      rw [hw, ih (v - a.area)]
      constructor
      · intro hall j hj
        rcases j with _ | j
        · rw [prefixArea_cons]
          simp only [prefixArea, List.take_zero, List.map_nil, List.sum_nil,
            add_zero]
          linarith [not_le.mp h]
        · have := hall j (by simpa using Nat.lt_of_succ_lt_succ hj)
          rw [prefixArea_cons]
          linarith
      · intro hall i hi
        have := hall (i + 1) (by simpa using Nat.succ_lt_succ hi)
        rw [prefixArea_cons] at this
        linarith

/-- C4: `sample_triangle` scales the drawn uniform sample by the total mesh
area and returns exactly the first triangle of the ordered sequence at which
the running value (scaled sample minus the prefix sum of areas) becomes
non-positive. -/
theorem sample_triangle_first_nonpositive (b : BoundImpl) (rand : ℚ) (t : Triangle) :
    b.sample_triangle rand = some t ↔
      ∃ i, ∃ _ : i < b.inner.triangles.length, b.inner.triangles[i]? = some t ∧
        b.area * rand - prefixArea b.inner.triangles (i + 1) ≤ 0 ∧
        ∀ j < i, 0 < b.area * rand - prefixArea b.inner.triangles (j + 1) :=
  sampleWalk_eq_some b.inner.triangles (b.area * rand) t

/-- Witness for C4: in the two-triangle mesh of unit area with per-triangle
area `1/2`, the drawn sample `3/4` selects the second triangle (running value
`3/4 - 1/2 = 1/4 > 0` after the first, `1/4 - 1/2 = -1/4 ≤ 0` after the
second). -/
theorem sample_triangle_first_nonpositive_witness :
    BoundImpl.sample_triangle twoTriangleBound (3 / 4) = some nearTriangle := by
  refine (sample_triangle_first_nonpositive twoTriangleBound (3 / 4) nearTriangle).mpr
    ⟨1, by norm_num [twoTriangleBound], rfl, ?_, ?_⟩
  · norm_num [twoTriangleBound, BoundImpl.area, prefixArea, farTriangle, nearTriangle]
  · intro j hj
    have hj0 : j = 0 := by omega
    subst hj0
    norm_num [twoTriangleBound, BoundImpl.area, prefixArea, farTriangle]

/-- C5: `sample_triangle` reaches the `unreachable!` panic (modelled `none`)
exactly when the scan exhausts the whole triangle sequence with the running
value still positive; equivalently, a triangle is returned only when its
running value went non-positive. -/
theorem sample_triangle_none_iff (b : BoundImpl) (rand : ℚ) :
    b.sample_triangle rand = none ↔
      ∀ i < b.inner.triangles.length,
        0 < b.area * rand - prefixArea b.inner.triangles (i + 1) :=
  sampleWalk_eq_none b.inner.triangles (b.area * rand)

/-- Mesh whose reported aggregate area (10) drifted away from the sum of its
triangle areas (1), so the area-weighted scan can run off the end. -/
def driftBound : BoundImpl :=
  ⟨⟨[farTriangle, nearTriangle], 10⟩, fun _ => []⟩

/-- Witness for C5: with the drifted area accounting and sample 1, the
running value stays positive through both triangles and the scan aborts. -/
theorem sample_triangle_none_iff_witness :
    BoundImpl.sample_triangle driftBound 1 = none := by
  refine (sample_triangle_none_iff driftBound 1).mpr ?_
  intro i hi
  have hi2 : i = 0 ∨ i = 1 := by
    simp only [driftBound, List.length_cons, List.length_nil] at hi
    omega
  rcases hi2 with hi0 | hi1
  · subst hi0
    norm_num [driftBound, BoundImpl.area, prefixArea, farTriangle]
  · subst hi1
    norm_num [driftBound, BoundImpl.area, prefixArea, farTriangle, nearTriangle]

/-- Model of `RayTraceable::sample_position` for `Mesh`: draw a triangle
area-weighted (`r1` is the value `F::sample_rand()` returns inside
`sample_triangle`), sample a location on it (`r2` the value drawn by
`Triangle::sample_location`), and report the location, the triangle's normal
and the position density `1 / area`.  `none` propagates the
`sample_triangle` panic. -/
def RayTraceable.sample_position (b : BoundImpl) (r1 r2 : ℚ) :
    Option (Vector3D × Vector3D × ℚ) :=
  match b.sample_triangle r1 with
  | none => none
  | some triangle =>
    let cp := triangle.sample_location r2
    let position_pdf := 1 / b.area
    some (cp.1, triangle.normal, position_pdf)

/-- Model of `RayTraceable::sample_direction` for `Mesh`: the `coords` and
`normal` arguments are received (as in the Rust signature) and ignored; a
triangle is independently redrawn and its direction sampler delegated to. -/
def RayTraceable.sample_direction (b : BoundImpl) (coords normal : Vector3D)
    (r1 r2 : ℚ) : Option (Vector3D × ℚ) :=
  match b.sample_triangle r1 with
  | none => none
  | some triangle => some (triangle.sample_direction r2)

/-- Model of `LightSample<F>`. -/
structure LightSample where
  ray : Ray
  normal : Vector3D
  position_pdf : ℚ
  direction_pdf : ℚ
deriving DecidableEq, Repr

/-- Model of `RayTraceable::sample_light` for `Mesh`: redraw a triangle,
sample a location and a direction on it, and package the outgoing ray with
the triangle's normal and both densities. -/
def RayTraceable.sample_light (b : BoundImpl) (r1 r2 r3 : ℚ) : Option LightSample :=
  match b.sample_triangle r1 with
  | none => none
  | some triangle =>
    let cp := triangle.sample_location r2
    let position_pdf := 1 / b.area
    let dp := triangle.sample_direction r3
    some ⟨⟨cp.1, dp.1⟩, triangle.normal, position_pdf, dp.2⟩

/-- C7: whenever the area-weighted draw selects triangle `t`,
`sample_position` returns the location sampled on `t`, the normal of `t`, and
the position density exactly `1 / (total mesh area)`. -/
theorem sample_position_density (b : BoundImpl) (r1 r2 : ℚ) (t : Triangle)
    (h : b.sample_triangle r1 = some t) :
    RayTraceable.sample_position b r1 r2 =
      some ((t.sample_location r2).1, t.normal, 1 / b.area) := by
  simp only [RayTraceable.sample_position, h]

/-- Triangle of area `1/2` whose location sampler returns `(1/4, 1/4, 0)`. -/
def halfAreaTriangle : Triangle :=
  ⟨1 / 2, ⟨0, 0, 1⟩, fun _ => (⟨1 / 4, 1 / 4, 0⟩, ⟨0, 0, 0⟩), fun _ => (⟨0, 0, 1⟩, 1),
    fun _ => none⟩

/-- Single-triangle mesh of total area `1/2`. -/
def singleTriangleBound : BoundImpl :=
  ⟨⟨[halfAreaTriangle], 1 / 2⟩, fun _ => [0]⟩

/-- Witness for C7: on the single triangle of area `1/2` the position density
is exactly `2`. -/
theorem sample_position_density_witness :
    RayTraceable.sample_position singleTriangleBound 0 0 =
      some (⟨1 / 4, 1 / 4, 0⟩, ⟨0, 0, 1⟩, 2) := by
  have h : singleTriangleBound.sample_triangle 0 = some halfAreaTriangle := by
    simp only [BoundImpl.sample_triangle, singleTriangleBound, BoundImpl.area, sampleWalk]
    rw [if_pos (by norm_num [halfAreaTriangle])]
  rw [sample_position_density singleTriangleBound 0 0 halfAreaTriangle h]
  norm_num [halfAreaTriangle, singleTriangleBound, BoundImpl.area]

/-- Counterexample to C8: `RayTraceable::sample_position` takes no seed
argument in Rust — its only input is the mesh object; the two `ℚ` arguments of
the model are the values drawn from the shared generator during the call.
With the mesh fixed, two invocations whose internal draws differ return
different results, so the operation is not a deterministic function of its
declared inputs and draws from generator state not passed in as an
argument. -/
theorem sample_position_depends_on_generator :
    RayTraceable.sample_position twoTriangleBound 0 0 ≠
      RayTraceable.sample_position twoTriangleBound (3 / 4) 0 := by
  have h1 : twoTriangleBound.sample_triangle 0 = some farTriangle := by
    simp only [BoundImpl.sample_triangle, twoTriangleBound, BoundImpl.area, sampleWalk]
    rw [if_pos (by norm_num [farTriangle])]
  have h2 : twoTriangleBound.sample_triangle (3 / 4) = some nearTriangle := by
    simp only [BoundImpl.sample_triangle, twoTriangleBound, BoundImpl.area, sampleWalk]
    rw [if_neg (by norm_num [farTriangle]), if_pos (by norm_num [farTriangle, nearTriangle])]
  simp only [RayTraceable.sample_position, h1, h2]
  simp [farTriangle, nearTriangle]

/-- Model of the shared random generator's pending output stream: value `n` is
what the `n`-th call to `F::sample_rand()` will return. -/
def GenStream : Type := ℕ → ℚ

/-- `RayTraceable::sample_position` as actually invoked: no seed parameter;
the call consumes the next two values of the shared generator stream. -/
def samplePositionFromGen (b : BoundImpl) (g : GenStream) :
    Option (Vector3D × Vector3D × ℚ) :=
  RayTraceable.sample_position b (g 0) (g 1)

/-- C8 (amended): mesh-level sampling draws from the shared generator rather
than an explicit seed parameter; the result is determined by the mesh
together with the values actually drawn during the call — the generator state
beyond those drawn values cannot influence the result. -/
theorem sample_position_determined_by_draws (b : BoundImpl) (g g2 : GenStream)
    (h0 : g 0 = g2 0) (h1 : g 1 = g2 1) :
    samplePositionFromGen b g = samplePositionFromGen b g2 := by
  unfold samplePositionFromGen
  rw [h0, h1]

/-- Witness for the amended C8: two generator streams agreeing on their first
two values yield identical position samples. -/
theorem sample_position_determined_by_draws_witness :
    samplePositionFromGen twoTriangleBound (fun _ => 0) =
      samplePositionFromGen twoTriangleBound (fun n => if n < 2 then 0 else 7) :=
  sample_position_determined_by_draws twoTriangleBound _ _ rfl rfl

/-- C10: `sample_direction` ignores its `coords` and `normal` arguments: with
the same drawn random values, any two argument pairs give the same result,
produced entirely from the independently redrawn triangle. -/
theorem sample_direction_ignores_arguments (b : BoundImpl)
    (coords1 normal1 coords2 normal2 : Vector3D) (r1 r2 : ℚ) :
    RayTraceable.sample_direction b coords1 normal1 r1 r2 =
      RayTraceable.sample_direction b coords2 normal2 r1 r2 := rfl

/-- Model of `PartialBoundImpl<F>`: the mesh's unpadded extreme corners. -/
structure PartialBoundImpl where
  min_pt : Vector3D
  max_pt : Vector3D
deriving DecidableEq, Repr

/-- Model of `PartialBoundImpl::partial_hit`, the slab method translated
literally: precompute the reciprocal direction, per axis choose
`(min - origin) * inv` / `(max - origin) * inv` when the direction component
is `>= 0` and the swapped pair otherwise (the Rust tuple assignment is split
into its min and max components), take the max of entries and the min of
exits, and accept when `t_enter < t_exit + epsilon` and `t_exit > 0`, with
`epsilon = 1e-4`. -/
def PartialBoundImpl.partial_hit (pb : PartialBoundImpl) (ray : Ray) : Bool :=
  let origin := ray.origin
  let w_i := ray.direction
  let inv_dir : Vector3D := ⟨1 / w_i.x, 1 / w_i.y, 1 / w_i.z⟩
  let tx_min :=
    if 0 ≤ w_i.x then (pb.min_pt.x - origin.x) * inv_dir.x
    else (pb.max_pt.x - origin.x) * inv_dir.x
  let tx_max :=
    if 0 ≤ w_i.x then (pb.max_pt.x - origin.x) * inv_dir.x
    else (pb.min_pt.x - origin.x) * inv_dir.x
  let ty_min :=
    if 0 ≤ w_i.y then (pb.min_pt.y - origin.y) * inv_dir.y
    else (pb.max_pt.y - origin.y) * inv_dir.y
  let ty_max :=
    if 0 ≤ w_i.y then (pb.max_pt.y - origin.y) * inv_dir.y
    else (pb.min_pt.y - origin.y) * inv_dir.y
  let tz_min :=
    if 0 ≤ w_i.z then (pb.min_pt.z - origin.z) * inv_dir.z
    else (pb.max_pt.z - origin.z) * inv_dir.z
  let tz_max :=
    if 0 ≤ w_i.z then (pb.max_pt.z - origin.z) * inv_dir.z
    else (pb.min_pt.z - origin.z) * inv_dir.z
  let t_enter := max tx_min (max ty_min tz_min)
  let t_exit := min tx_max (min ty_max tz_max)
  let epsilon : ℚ := 1 / 10000
  decide (t_enter < t_exit + epsilon ∧ 0 < t_exit)

/-- Per-axis entry parametric distance as the spec states it:
`(corner - origin) / direction`, using the max corner when the direction
component is negative. -/
def axisEntry (minc maxc o d : ℚ) : ℚ :=
  if d < 0 then (maxc - o) / d else (minc - o) / d

/-- Per-axis exit parametric distance as the spec states it:
`(corner - origin) / direction`, using the min corner when the direction
component is negative. -/
def axisExit (minc maxc o d : ℚ) : ℚ :=
  if d < 0 then (minc - o) / d else (maxc - o) / d

/-- The coarse slab test exactly as the spec phrases it: overall entry the max
of per-axis entries, overall exit the min of per-axis exits, accepted iff
`entry < exit + 1e-4` and `exit > 0`. -/
def slabSpec (pb : PartialBoundImpl) (ray : Ray) : Bool :=
  let entry := max (axisEntry pb.min_pt.x pb.max_pt.x ray.origin.x ray.direction.x)
    (max (axisEntry pb.min_pt.y pb.max_pt.y ray.origin.y ray.direction.y)
      (axisEntry pb.min_pt.z pb.max_pt.z ray.origin.z ray.direction.z))
  let tExit := min (axisExit pb.min_pt.x pb.max_pt.x ray.origin.x ray.direction.x)
    (min (axisExit pb.min_pt.y pb.max_pt.y ray.origin.y ray.direction.y)
      (axisExit pb.min_pt.z pb.max_pt.z ray.origin.z ray.direction.z))
  decide (entry < tExit + 1 / 10000 ∧ 0 < tExit)

theorem axisEntry_eq (minc maxc o d : ℚ) :
    axisEntry minc maxc o d =
      if 0 ≤ d then (minc - o) * (1 / d) else (maxc - o) * (1 / d) := by
  unfold axisEntry
  rcases le_or_lt 0 d with h | h
  · rw [if_neg (not_lt.mpr h), if_pos h, mul_one_div]
  · rw [if_pos h, if_neg (not_le.mpr h), mul_one_div]

theorem axisExit_eq (minc maxc o d : ℚ) :
    axisExit minc maxc o d =
      if 0 ≤ d then (maxc - o) * (1 / d) else (minc - o) * (1 / d) := by
  unfold axisExit
  rcases le_or_lt 0 d with h | h
  · rw [if_neg (not_lt.mpr h), if_pos h, mul_one_div]
  · rw [if_pos h, if_neg (not_le.mpr h), mul_one_div]

/-- C6: `partial_hit` computes exactly the spec's slab test: per-axis entry
and exit distances `(corner - origin) / direction` with corners swapped on a
negative direction component, overall entry the max of entries, overall exit
the min of exits, accepting iff `entry < exit + 1e-4` and `exit > 0`. -/
theorem partial_hit_eq_slabSpec (pb : PartialBoundImpl) (ray : Ray) :
    pb.partial_hit ray = slabSpec pb ray := by
  simp only [PartialBoundImpl.partial_hit, slabSpec, axisEntry_eq, axisExit_eq]
